import Mathlib

/-!
Verification of the blargbot repository's natural-language specification
against its source. Each section shallowly embeds one part of the code:

* `src/src/tags/delete.js` — the `delete` subtag (handler table, permission
  check, channel/message resolution, the do-not-treat-as-command marker and
  the platform `deleteMessage` call).
* `Database.connect` / `Database.retryConnect` — the connection bootstrap.
* `ConcatBinding` — the positional-argument concatenation binder.
* `CustomCommand.saveCommand` — the create/edit/set save path.
* The shrinkwrap export/import format (`shrinkCommand`, `signShrinkwrap`,
  `mapShrinkwrap`, `installCommands`).

Effectful code is embedded as pure functions returning a result together with
an explicit trace of the side effects it performed, in order.
-/

namespace Blargbot

/-! ### The delete subtag (src/src/tags/delete.js) -/

/-- A chat message as the `delete` subtag observes it: the channel it lives in
and its id (`msg.channel.id`, `msg.id`). -/
structure Message where
  channelId : String
  id : String
deriving DecidableEq

/-- Result of a subtag handler. `runtimeError` is `Builder.util.error` with a
message; `tooManyArguments`, `noChannelFound` and `noMessageFound` are the
corresponding `Builder.errors` renderers; `done` is a handler returning
`undefined` (success, no output); `fatal` stands for the engine's fatal
aborts (limit breaches), which the delete subtag itself never produces. -/
inductive TagOutcome where
  | runtimeError (msg : String)
  | tooManyArguments
  | noChannelFound
  | noMessageFound
  | done
  | fatal
deriving DecidableEq

/-- Modelled from the spec: non-fatal errors are rendered in-band and
evaluation continues at sibling nodes; only fatal aborts terminate the
invocation. The evaluator itself is not under src/. -/
def nonFatal : TagOutcome → Bool
  | .fatal => false
  | _ => true

/-- Observable side effects of the `delete` handler: writing the
`bu.notCommandMessages[guildId][messageId]` marker, and calling the platform
`bot.deleteMessage(channelId, messageId)` (recording whether the platform
call succeeded, since the handler ignores its outcome). -/
inductive SideEffect where
  | setNotCommandMarker (guildId messageId : String)
  | deleteMessageCall (channelId messageId : String) (succeeded : Bool)
deriving DecidableEq

/-- The environment the `delete` handler runs against: the invocation context
(`context.isStaff`, `context.ownsMessage`, `context.channel.id`,
`context.msg`, `context.guild.id`) and the borrowed platform capabilities
(`Builder.util.parseChannel` resolving to a channel id or nothing,
`bot.getMessage` which may throw (`Except.error`) or resolve to a message or
a falsy value, and whether `bot.deleteMessage` would succeed). -/
structure DeleteEnv where
  isStaff : Bool
  ownsMessage : String → Bool
  ctxChannel : String
  ctxMsg : Message
  guildId : String
  parseChannel : String → Option String
  getMessage : String → String → Except Unit (Option Message)
  deleteSucceeds : String → String → Bool

/-- The `deleteMessage` shared prop of the delete subtag
(src/src/tags/delete.js lines 26-53), step for step: permission check, quiet
channel lookup, fetching the target message when it is not the invoking one
(a throwing fetch is recovered to `noMessageFound`), setting the
not-command marker under `context.guild.id` / `context.msg.id`, then the
platform delete call whose failure is caught by a no-op handler. -/
def deleteMessage (env : DeleteEnv) (channelId messageId : String) :
    TagOutcome × List SideEffect :=
  if !(env.isStaff || env.ownsMessage messageId) then
    (.runtimeError "Author must be staff to delete unrelated messages", [])
  else
    match env.parseChannel channelId with
    | none => (.noChannelFound, [])
    | some chanId =>
      let msgRes : Except Unit (Option Message) :=
        if env.ctxMsg.id = messageId then .ok (some env.ctxMsg)
        else env.getMessage chanId messageId
      match msgRes with
      | .error _ => (.noMessageFound, [])
      | .ok msgOpt =>
        let marker := SideEffect.setNotCommandMarker env.guildId env.ctxMsg.id
        match msgOpt with
        | none => (.done, [marker])
        | some m =>
          (.done, [marker, .deleteMessageCall m.channelId m.id
                              (env.deleteSucceeds m.channelId m.id)])

/-- Modelled from the spec: the TagBuilder subtag definition record and its
arity-dispatch table (the builder itself is not under src/) — an ordered set
of exact-argument-count handlers plus a designated default handler. -/
structure SubtagDef (H : Type) where
  handlers : List (Nat × H)
  defaultHandler : H

/-- Modelled from the spec: arity handlers are selected by exact argument
count first; if no exact match exists, the designated default handler runs. -/
def selectHandler {H : Type} (d : SubtagDef H) (argc : Nat) : H :=
  match d.handlers.find? (fun p => p.1 == argc) with
  | some p => p.2
  | none => d.defaultHandler

/-- The delete subtag's handler table as declared in src/src/tags/delete.js:
`whenArgs(0)` deletes the invoking message in the current channel,
`whenArgs(1)` deletes `args[0]` in the current channel, `whenArgs(2)` deletes
`args[1]` in channel `args[0]`, and `whenDefault` is
`Builder.errors.tooManyArguments`. -/
def deleteSubtag (env : DeleteEnv) :
    SubtagDef (List String → TagOutcome × List SideEffect) where
  handlers :=
    [ (0, fun _ => deleteMessage env env.ctxChannel env.ctxMsg.id),
      (1, fun args => deleteMessage env env.ctxChannel (args.getD 0 "")),
      (2, fun args => deleteMessage env (args.getD 0 "") (args.getD 1 "")) ]
  defaultHandler := fun _ => (.tooManyArguments, [])

/-- A concrete sample environment: a staff author invoking from message `m0`
in channel `c0` of guild `g`; channel lookup succeeds on `c0` and `c1`,
message `m1` exists in `c1`, and the platform delete call succeeds. -/
def sampleEnv : DeleteEnv where
  isStaff := true
  ownsMessage := fun _ => false
  ctxChannel := "c0"
  ctxMsg := { channelId := "c0", id := "m0" }
  guildId := "g"
  parseChannel := fun c => if c = "c0" || c = "c1" then some c else none
  getMessage := fun c m =>
    if c = "c1" && m = "m1" then .ok (some { channelId := "c1", id := "m1" })
    else .error ()
  deleteSucceeds := fun _ _ => true

/-- Like `sampleEnv` but the author is neither staff nor the owner of any
message. -/
def unauthorizedEnv : DeleteEnv :=
  { sampleEnv with isStaff := false }

/-- Like `sampleEnv` but every `bot.deleteMessage` call fails. -/
def deleteFailsEnv : DeleteEnv :=
  { sampleEnv with deleteSucceeds := fun _ _ => false }

/-- Like `sampleEnv` but every `bot.getMessage` call throws. -/
def getMessageThrowsEnv : DeleteEnv :=
  { sampleEnv with getMessage := fun _ _ => .error () }

/-- True when the handler's result carries any diagnostic at all; `done`
(a handler returning `undefined`) reports nothing to the caller. -/
def reportsDiagnostic (r : TagOutcome × List SideEffect) : Bool :=
  match r.1 with
  | .done => false
  | _ => true

/-! ### Database.connect and retryConnect (src/unnamed/part_000) -/

/-- The one piece of `Database` state `connect` mutates: whether `connect`
has been overwritten by the no-op `() => Promise.resolve()` (its first
statement). -/
structure DbConnectState where
  connectReplaced : Bool
deriving DecidableEq

/-- The work items `Database.connect` performs on its first call, in
program order: the four retried connections, the seven table migrations,
and the two change watches. -/
inductive DbWork where
  | retryConnect (dbName : String) (intervalMs maxAttempts : Nat)
  | migrate (table : String)
  | watchChanges (table : String)
deriving DecidableEq

/-- The full work list of a first `Database.connect` call
(src/unnamed/part_000 lines 91-113). -/
def connectWork : List DbWork :=
  [ .retryConnect "rethinkDb" 5000 10, .retryConnect "cassandra" 5000 10,
    .retryConnect "postgresdb" 5000 10, .retryConnect "airtable" 5000 10,
    .migrate "guilds", .migrate "users", .migrate "vars", .migrate "events",
    .migrate "tags", .migrate "chatlogs", .migrate "dumps",
    .watchChanges "guilds", .watchChanges "users" ]

/-- `Database.connect`: its first statement replaces `this.connect` with
`() => Promise.resolve()`, so the work list is performed only when the
method has not been replaced yet; afterwards the call is a no-op. -/
def Database.connect (s : DbConnectState) : DbConnectState × List DbWork :=
  if s.connectReplaced then (s, [])
  else ({ connectReplaced := true }, connectWork)

/-- One observed step of `retryConnect`: a successful connection attempt, or
a failed attempt followed by a sleep of `sleptMs` milliseconds. -/
inductive RetryEvent where
  | connected (attempt : Nat)
  | failed (attempt : Nat) (sleptMs : Nat)
deriving DecidableEq

/-- The `while (attempt++ < maxAttempts)` loop of `retryConnect`
(src/unnamed/part_000 lines 115-127), with `attempt` the value before the
post-increment and `fuel = maxAttempts - attempt` the remaining iterations.
`res n` is the outcome of the n-th `connect()` call; a failure is caught,
logged and followed by `sleep(intervalMs)`. The second component is the
promise outcome of the whole call. -/
def retryConnectGo (res : Nat → Except String Unit) (intervalMs : Nat) :
    Nat → Nat → List RetryEvent × Except String Unit
  | _, 0 => ([], .ok ())
  | attempt, fuel + 1 =>
    match res (attempt + 1) with
    | .ok _ => ([.connected (attempt + 1)], .ok ())
    | .error _ =>
      let rest := retryConnectGo res intervalMs (attempt + 1) fuel
      (.failed (attempt + 1) intervalMs :: rest.1, rest.2)

/-- `Database.retryConnect(dbName, connect, intervalMs, maxAttempts)`:
runs the retry loop from `attempt = 0`. -/
def retryConnect (res : Nat → Except String Unit) (intervalMs maxAttempts : Nat) :
    List RetryEvent × Except String Unit :=
  retryConnectGo res intervalMs 0 maxAttempts

/-! ### ConcatBinding (src/unnamed/part_000 lines 134-167) -/

/-- One positional-argument view as `FlagResultValueSet.merge` returns it:
the processed `value` and the `raw` text. -/
structure BindValue where
  value : String
  raw : String
deriving DecidableEq

/-- The `state.flags._` collection the binder consumes: its `length` and its
`merge(start, end)` operation (whose implementation is host code the binder
only calls). -/
structure PositionalArgs where
  length : Nat
  merge : Nat → Nat → BindValue

/-- What one `yield` of the binder produces: `getBindingResult(state, next,
consumed, parse(...))`, recording the `consumed` count passed through, or
`bindingError` with its message. The parse result type is abstract. -/
inductive BindResult (α : Type) where
  | binding (consumed : Nat) (parsed : α)
  | bindingError (message : String)
deriving DecidableEq

/-- The `ConcatBinding` generator body, in order: when no positional
arguments remain (`length === argIndex`), one result — the parsed fallback
if defined, else the not-enough-arguments error; otherwise one result per
loop iteration `i = 0, 1, ...` while `i <= length - argIndex`, each parsing
`merge(argIndex, argIndex + i + 1)` (raw or processed per the `raw` flag).
When `argIndex` exceeds `length` the loop bound is negative and nothing is
yielded. -/
def concatBinding {α : Type} (name : String) (fallback : Option String)
    (raw : Bool) (parse : String → α) (flagsPos : PositionalArgs)
    (argIndex : Nat) : List (BindResult α) :=
  if flagsPos.length = argIndex then
    match fallback with
    | some fb => [.binding 0 (parse fb)]
    | none => [.bindingError ("❌ Not enough arguments! `" ++ name ++ "` is required")]
  else if flagsPos.length < argIndex then []
  else
    (List.range (flagsPos.length - argIndex + 1)).map fun i =>
      let args := flagsPos.merge argIndex (argIndex + i + 1)
      .binding i (parse (if raw then args.raw else args.value))

/-- A concrete two-argument-view collection for witnesses: merging positions
`s` (inclusive) to `e` (exclusive) is reported verbatim in the value. -/
def samplePositional : PositionalArgs where
  length := 1
  merge := fun s e => { value := "v" ++ toString s ++ toString e,
                        raw := "r" ++ toString s ++ toString e }

/-! ### Stored custom commands and the ccommand save path (src/unnamed/part_001) -/

/-- A flag definition as `addCommandFlags` builds it:
`flags.push({ flag, word, desc })`. -/
structure FlagDefinition where
  flag : String
  word : String
  desc : String
deriving DecidableEq

/-- A named stored raw guild command. Beyond its `name`, `author` and
`authorizer` it carries exactly the fields the shrinkwrap feature round-trips
(`_ShrunkCommand = Omit<NamedStoredRawGuildCommand, 'author' | 'authorizer'
| 'name'>`); optional fields may be absent (`undefined`). -/
structure NamedStoredRawGuildCommand where
  name : String
  author : String
  authorizer : String
  content : String
  cooldown : Option Int
  flags : Option (List FlagDefinition)
  help : Option String
  hidden : Option Bool
  lang : Option String
  managed : Option Bool
  roles : Option (List String)
  uses : Option Int
deriving DecidableEq

/-- The `ShrunkCommand` shape: a stored command minus `author`, `authorizer`
and `name`, with the fields in the order `shrinkCommand` (and the
`mapShrunkCommand` mapping) lists them. -/
structure ShrunkCommand where
  content : String
  cooldown : Option Int
  flags : Option (List FlagDefinition)
  help : Option String
  hidden : Option Bool
  lang : Option String
  managed : Option Bool
  roles : Option (List String)
  uses : Option Int
deriving DecidableEq

/-- `shrinkCommand` (src/unnamed/part_001 lines 854-866): the object literal
`{ content, cooldown, flags, help, hidden, lang, managed, roles, uses }`
projected from the stored command. -/
def shrinkCommand (command : NamedStoredRawGuildCommand) : ShrunkCommand where
  content := command.content
  cooldown := command.cooldown
  flags := command.flags
  help := command.help
  hidden := command.hidden
  lang := command.lang
  managed := command.managed
  roles := command.roles
  uses := command.uses

/-- The result of the static pre-execution check `cluster.bbtag.check`. -/
structure Analysis where
  errors : List String
  warnings : List String

/-- The command object literal `saveCommand` builds and hands to
`database.guilds.setCommand`. -/
structure SavedCommand where
  content : String
  author : String
  authorizer : String
  hidden : Bool
  flags : Option (List FlagDefinition)
  cooldown : Option Int
  help : Option String
  lang : Option String
  roles : Option (List String)
  uses : Option Int
deriving DecidableEq

/-- What `saveCommand` depends on from its surroundings: the static analyzer
`cluster.bbtag.check`, the diagnostic renderer `bbtagUtil.stringifyAnalysis`
(used opaquely), the reply the author would give to the content prompt
(`none` when no usable reply arrives), and the invoking author/guild. -/
structure SaveEnv where
  check : String → Analysis
  stringifyAnalysis : Analysis → String
  queryContent : Option String
  authorId : String
  guildId : String

/-- A store write performed by the ccommand save path. -/
inductive StoreOp where
  | setCommand (guildId commandName : String) (command : SavedCommand)

/-- The prompt branch of `requestCommandContent`: a missing reply or a
literal `c` cancels; an empty reply yields nothing. -/
def contentFromQuery (env : SaveEnv) : Option String :=
  match env.queryContent with
  | none => none
  | some c => if c = "c" then none else if 0 < c.length then some c else none

/-- `requestCommandContent` (src/unnamed/part_001 lines 756-768): a supplied
non-empty content is used as is, otherwise the author is prompted. -/
def requestCommandContent (env : SaveEnv) (content : Option String) :
    Option String :=
  match content with
  | some c => if 0 < c.length then some c else contentFromQuery env
  | none => contentFromQuery env

/-- `saveCommand` (src/unnamed/part_001 lines 702-733): resolve the content,
run the static analysis and refuse to save when it reports errors; otherwise
build the command record (author and authorizer become the invoking author,
`hidden` falls back to whether the name starts with an underscore, the other
fields carry over from the current command) and store it via `setCommand`.
The second component is the list of store writes performed. -/
def saveCommand (env : SaveEnv) (operation commandName : String)
    (content : Option String)
    (currentCommand : Option NamedStoredRawGuildCommand) :
    Option String × List StoreOp :=
  match requestCommandContent env content with
  | none => (none, [])
  | some c =>
    let analysis := env.check c
    if 0 < analysis.errors.length then
      (some ("❌ There were errors with the bbtag you provided!\n"
               ++ env.stringifyAnalysis analysis), [])
    else
      let command : SavedCommand :=
        { content := c
          author := env.authorId
          authorizer := env.authorId
          hidden := ((currentCommand.bind (·.hidden)).getD
                       (commandName.startsWith "_"))
          flags := currentCommand.bind (·.flags)
          cooldown := currentCommand.bind (·.cooldown)
          help := currentCommand.bind (·.help)
          lang := currentCommand.bind (·.lang)
          roles := currentCommand.bind (·.roles)
          uses := currentCommand.bind (·.uses) }
      (some ("✅ Custom command `" ++ commandName ++ "` " ++ operation
               ++ ".\n" ++ env.stringifyAnalysis analysis),
       [.setCommand env.guildId commandName command])

/-- A sample save environment whose analyzer reports one error for every
script. -/
def failingSaveEnv : SaveEnv where
  check := fun _ => { errors := ["`x` is not a valid subtag"], warnings := [] }
  stringifyAnalysis := fun a => String.intercalate "\n" (a.errors ++ a.warnings)
  queryContent := none
  authorId := "author1"
  guildId := "guild1"

/-! ### The shrinkwrap bundle (src/unnamed/part_001) -/

/-- `ShrunkAutoresponse`: an everything-autoresponse whose `executes` is a
shrunk command. -/
structure ShrunkAutoresponse where
  executes : ShrunkCommand
deriving DecidableEq

/-- `ShrunkFilteredAutoresponse`: a filtered autoresponse carrying its
`regex`/`term` filter and a shrunk command. -/
structure ShrunkFilteredAutoresponse where
  executes : ShrunkCommand
  regex : Bool
  term : String
deriving DecidableEq

/-- The `Shrinkwrap` payload: named commands, filtered autoresponses, and an
optional everything-autoresponse. The `cc` record is kept as an association
list in insertion order, as a JS object preserves it. -/
structure Shrinkwrap where
  cc : List (String × ShrunkCommand)
  ar : List ShrunkFilteredAutoresponse
  are : Option ShrunkAutoresponse
deriving DecidableEq

/-- A JSON document value, as the JS side sees a parsed installation file:
object fields keep their order. -/
inductive JValue where
  | jnull
  | jbool (b : Bool)
  | jnum (n : Int)
  | jstr (s : String)
  | jarr (items : List JValue)
  | jobj (fields : List (String × JValue))

/-- Property access `obj[key]` on a parsed JSON object. -/
def jfind : List (String × JValue) → String → Option JValue
  | [], _ => none
  | (k, v) :: rest, key => if k == key then some v else jfind rest key

/-- Whether a JSON object has a field of the given name. -/
def jhasKey : JValue → String → Bool
  | .jobj fields, key => fields.any (fun p => p.1 == key)
  | _, _ => false

/-- An optional JSON member: an `undefined` value is omitted by
`JSON.stringify`, so it contributes no field. -/
def optJField (key : String) : Option JValue → List (String × JValue)
  | none => []
  | some v => [(key, v)]

/-- A flag definition as the export serializes it, in the key order
`addCommandFlags` inserts (`{ flag, word, desc }`). -/
def flagToJ (f : FlagDefinition) : JValue :=
  .jobj [("flag", .jstr f.flag), ("word", .jstr f.word), ("desc", .jstr f.desc)]

/-- The fields of a shrunk command's JSON image: the `shrinkCommand` object
literal's keys in literal order, `undefined` fields omitted. -/
def shrunkFields (c : ShrunkCommand) : List (String × JValue) :=
  ("content", .jstr c.content)
    :: (optJField "cooldown" (c.cooldown.map .jnum)
      ++ (optJField "flags" (c.flags.map fun fs => .jarr (fs.map flagToJ))
      ++ (optJField "help" (c.help.map .jstr)
      ++ (optJField "hidden" (c.hidden.map .jbool)
      ++ (optJField "lang" (c.lang.map .jstr)
      ++ (optJField "managed" (c.managed.map .jbool)
      ++ (optJField "roles" (c.roles.map fun rs => .jarr (rs.map .jstr))
      ++ optJField "uses" (c.uses.map .jnum))))))))

/-- A shrunk command as the exported bundle contains it. -/
def shrunkToJ (c : ShrunkCommand) : JValue :=
  .jobj (shrunkFields c)

/-- A filtered autoresponse as the bundle contains it
(`{ ...ar, executes: shrinkCommand(command) }`); the stored object's own key
order is modelled as `executes`, `regex`, `term`. -/
def filteredToJ (a : ShrunkFilteredAutoresponse) : JValue :=
  .jobj [("executes", shrunkToJ a.executes), ("regex", .jbool a.regex),
         ("term", .jstr a.term)]

/-- The everything-autoresponse slot: the literal `null`, or
`{ executes: ... }`. -/
def areToJ : Option ShrunkAutoresponse → JValue
  | none => .jnull
  | some a => .jobj [("executes", shrunkToJ a.executes)]

/-- The payload JSON document `shrinkwrapCommands` exports: the JSON image
of the `{ cc: {}, ar: [], are: null }` literal it fills in, keys in literal
order `cc`, `ar`, `are`. -/
def swToJExport (sw : Shrinkwrap) : JValue :=
  .jobj [("cc", .jobj (sw.cc.map fun p => (p.1, shrunkToJ p.2))),
         ("ar", .jarr (sw.ar.map filteredToJ)),
         ("are", areToJ sw.are)]

/-- Modelled from the spec: `mapping.string` — the mapping combinator module
itself is not under src/; a string mapping accepts exactly a JSON string. -/
def mapString : JValue → Option String
  | .jstr s => some s
  | _ => none

/-- Modelled from the spec: `mapping.boolean`. -/
def mapBoolean : JValue → Option Bool
  | .jbool b => some b
  | _ => none

/-- Modelled from the spec: `mapping.optionalNumber` — an absent
(`undefined`) member maps to `undefined`, a number to itself, anything else
is invalid. -/
def optionalNumber : Option JValue → Option (Option Int)
  | none => some none
  | some (.jnum n) => some (some n)
  | some _ => none

/-- Modelled from the spec: `mapping.optionalString`. -/
def optionalString : Option JValue → Option (Option String)
  | none => some none
  | some (.jstr s) => some (some s)
  | some _ => none

/-- Modelled from the spec: `mapping.optionalBoolean`. -/
def optionalBoolean : Option JValue → Option (Option Bool)
  | none => some none
  | some (.jbool b) => some (some b)
  | some _ => none

/-- Modelled from the spec: element-wise application of a mapping to an
array's items, failing when any item fails. -/
def mapList {α : Type} (f : JValue → Option α) : List JValue → Option (List α)
  | [] => some []
  | x :: xs => do
    let a ← f x
    let as ← mapList f xs
    pure (a :: as)

/-- Modelled from the spec: `mapping.array(elem, { ifUndefined: undefined })`
— an absent member maps to `undefined`, an array element-wise, anything
else is invalid. -/
def mapArrayOptional {α : Type} (f : JValue → Option α) :
    Option JValue → Option (Option (List α))
  | none => some none
  | some (.jarr items) => (mapList f items).map some
  | some _ => none

/-- Modelled from the spec: value-wise application of a mapping to a JSON
object's fields (`mapping.record`), keeping the fields' order. -/
def mapRecordFields {α : Type} (f : JValue → Option α) :
    List (String × JValue) → Option (List (String × α))
  | [] => some []
  | (k, v) :: rest => do
    let a ← f v
    let as ← mapRecordFields f rest
    pure ((k, a) :: as)

/-- The `FlagDefinition` object mapping of `mapShrunkCommand`, which declares
its keys in the order `desc`, `word`, `flag`. -/
def mapFlagDef (j : JValue) : Option FlagDefinition :=
  match j with
  | .jobj fields => do
    let d ← jfind fields "desc" >>= mapString
    let w ← jfind fields "word" >>= mapString
    let f ← jfind fields "flag" >>= mapString
    pure { flag := f, word := w, desc := d }
  | _ => none

/-- `mapShrunkCommand` (src/unnamed/part_001 lines 911-928): the object
mapping with keys `content`, `cooldown`, `flags`, `help`, `hidden`, `lang`,
`managed`, `roles`, `uses`. -/
def mapShrunkCommand (j : JValue) : Option ShrunkCommand :=
  match j with
  | .jobj fields => do
    let content ← jfind fields "content" >>= mapString
    let cooldown ← optionalNumber (jfind fields "cooldown")
    let flags ← mapArrayOptional mapFlagDef (jfind fields "flags")
    let help ← optionalString (jfind fields "help")
    let hidden ← optionalBoolean (jfind fields "hidden")
    let lang ← optionalString (jfind fields "lang")
    let managed ← optionalBoolean (jfind fields "managed")
    let roles ← mapArrayOptional mapString (jfind fields "roles")
    let uses ← optionalNumber (jfind fields "uses")
    pure { content := content, cooldown := cooldown, flags := flags,
           help := help, hidden := hidden, lang := lang, managed := managed,
           roles := roles, uses := uses }
  | _ => none

/-- The `ShrunkFilteredAutoresponse` object mapping of `mapShrinkwrap`,
declared keys `executes`, `regex`, `term`. -/
def mapFiltered (j : JValue) : Option ShrunkFilteredAutoresponse :=
  match j with
  | .jobj fields => do
    let e ← jfind fields "executes" >>= mapShrunkCommand
    let r ← jfind fields "regex" >>= mapBoolean
    let t ← jfind fields "term" >>= mapString
    pure { executes := e, regex := r, term := t }
  | _ => none

/-- The `are` member's mapping: `mapping.object({ executes }, { ifNull:
null })` — a JSON `null` maps to `null`, an object to its `executes`. -/
def mapAre (j : JValue) : Option (Option ShrunkAutoresponse) :=
  match j with
  | .jnull => some none
  | .jobj fields =>
    (jfind fields "executes" >>= mapShrunkCommand).map
      (fun e => some { executes := e })
  | _ => none

/-- `mapShrinkwrap` (src/unnamed/part_001 lines 930-942): the object mapping
with declared keys `are`, `ar`, `cc`; every declared key must be present. -/
def mapShrinkwrap (j : JValue) : Option Shrinkwrap :=
  match j with
  | .jobj fields => do
    let are ← jfind fields "are" >>= mapAre
    let ar ← (match jfind fields "ar" with
              | some (.jarr items) => mapList mapFiltered items
              | _ => none)
    let cc ← (match jfind fields "cc" with
              | some (.jobj ccFields) => mapRecordFields mapShrunkCommand ccFields
              | _ => none)
    pure { cc := cc, ar := ar, are := are }
  | _ => none

/-! #### Serialization for signing

`signShrinkwrap` computes an HMAC over `JSON.stringify` of the payload object
it is handed. Below are `JSON.stringify`'s outputs on the two payload objects
that actually get signed: the object `shrinkwrapCommands` constructs when
exporting, and the object the mapping combinators rebuild when installing
(whose field insertion order is the mappings' declaration order). The brace
characters are written with escape codes. -/

/-- Escaping of one character inside a JSON string literal. -/
def jescapeChar (c : Char) : String :=
  if c = '\\' then "\\\\" else if c = '"' then "\\\"" else String.singleton c

/-- The body of a JSON string literal. -/
def jescape (s : String) : String :=
  String.join (s.data.map jescapeChar)

/-- A JSON string literal. -/
def jquote (s : String) : String :=
  "\"" ++ jescape s ++ "\""

/-- A JSON boolean literal. -/
def jboolStr (b : Bool) : String :=
  if b then "true" else "false"

/-- A JSON number literal for an integer. -/
def jnumStr (n : Int) : String :=
  toString n

/-- A JSON object from already-rendered members. -/
def jobjStr (members : List String) : String :=
  "\x7b" ++ String.intercalate "," members ++ "\x7d"

/-- A JSON array from already-rendered items. -/
def jarrStr (items : List String) : String :=
  "[" ++ String.intercalate "," items ++ "]"

/-- One rendered object member. -/
def jmember (key rendered : String) : String :=
  jquote key ++ ":" ++ rendered

/-- An optional member: absent (`undefined`) fields are omitted. -/
def joptMember (key : String) : Option String → List String
  | none => []
  | some rendered => [jmember key rendered]

/-- A flag definition rendered in the exported key order
(`flag`, `word`, `desc`). -/
def flagStrExport (f : FlagDefinition) : String :=
  jobjStr [jmember "flag" (jquote f.flag), jmember "word" (jquote f.word),
           jmember "desc" (jquote f.desc)]

/-- A flag definition rendered in the mapping's declaration order
(`desc`, `word`, `flag`), the order in which `mapping.object` rebuilds it. -/
def flagStrMapped (f : FlagDefinition) : String :=
  jobjStr [jmember "desc" (jquote f.desc), jmember "word" (jquote f.word),
           jmember "flag" (jquote f.flag)]

/-- The members of a shrunk command's JSON object (top-level key order is the
same on both sides; only the flag objects' inner order differs). -/
def shrunkMembers (flagStr : FlagDefinition → String) (c : ShrunkCommand) :
    List String :=
  jmember "content" (jquote c.content)
    :: (joptMember "cooldown" (c.cooldown.map jnumStr)
      ++ joptMember "flags" (c.flags.map fun fs => jarrStr (fs.map flagStr))
      ++ joptMember "help" (c.help.map jquote)
      ++ joptMember "hidden" (c.hidden.map jboolStr)
      ++ joptMember "lang" (c.lang.map jquote)
      ++ joptMember "managed" (c.managed.map jboolStr)
      ++ joptMember "roles" (c.roles.map fun rs => jarrStr (rs.map jquote))
      ++ joptMember "uses" (c.uses.map jnumStr))

/-- A shrunk command as the export serializes it. -/
def shrunkStrExport (c : ShrunkCommand) : String :=
  jobjStr (shrunkMembers flagStrExport c)

/-- A shrunk command as the install-side rebuild serializes it. -/
def shrunkStrMapped (c : ShrunkCommand) : String :=
  jobjStr (shrunkMembers flagStrMapped c)

/-- A filtered autoresponse as the export serializes it. -/
def filteredStrExport (a : ShrunkFilteredAutoresponse) : String :=
  jobjStr [jmember "executes" (shrunkStrExport a.executes),
           jmember "regex" (jboolStr a.regex), jmember "term" (jquote a.term)]

/-- A filtered autoresponse as the install-side rebuild serializes it. -/
def filteredStrMapped (a : ShrunkFilteredAutoresponse) : String :=
  jobjStr [jmember "executes" (shrunkStrMapped a.executes),
           jmember "regex" (jboolStr a.regex), jmember "term" (jquote a.term)]

/-- The everything-autoresponse slot, export side. -/
def areStrExport : Option ShrunkAutoresponse → String
  | none => "null"
  | some a => jobjStr [jmember "executes" (shrunkStrExport a.executes)]

/-- The everything-autoresponse slot, install side. -/
def areStrMapped : Option ShrunkAutoresponse → String
  | none => "null"
  | some a => jobjStr [jmember "executes" (shrunkStrMapped a.executes)]

/-- `JSON.stringify` of the payload object `shrinkwrapCommands` constructs
(`{ cc, ar, are }` in literal key order) — the string `signShrinkwrap`
signs on export. -/
def signExportString (sw : Shrinkwrap) : String :=
  jobjStr [jmember "cc" (jobjStr (sw.cc.map fun p => jmember p.1 (shrunkStrExport p.2))),
           jmember "ar" (jarrStr (sw.ar.map filteredStrExport)),
           jmember "are" (areStrExport sw.are)]

/-- `JSON.stringify` of the payload object the mapping combinators rebuild
on install — field insertion order is `mapShrinkwrap`'s declaration order
`are`, `ar`, `cc` — the string `signShrinkwrap` signs when `installCommands`
recomputes the signature. -/
def signMappedString (sw : Shrinkwrap) : String :=
  jobjStr [jmember "are" (areStrMapped sw.are),
           jmember "ar" (jarrStr (sw.ar.map filteredStrMapped)),
           jmember "cc" (jobjStr (sw.cc.map fun p => jmember p.1 (shrunkStrMapped p.2)))]

/-- The signed bundle `shrinkwrapCommands` produces: the HMAC (an abstract
keyed hash `hmac`, fixed by the configuration's `interface_key`) of the
export serialization, together with the payload document. -/
def exportSignedBundle (hmac : String → String) (sw : Shrinkwrap) :
    String × JValue :=
  (hmac (signExportString sw), swToJExport sw)

/-- The signature comparison `installCommands` performs on a signed bundle
(src/unnamed/part_001 line 614): map the payload document back to a
`Shrinkwrap`, then compare the stored signature against the HMAC of the
rebuilt payload's serialization. `none` when the payload is malformed;
`some false` is the incorrect-signature warning. -/
def installSignatureCheck (hmac : String → String) (storedSig : String)
    (payload : JValue) : Option Bool :=
  (mapShrinkwrap payload).map fun sw => storedSig == hmac (signMappedString sw)

/-- The empty bundle: exporting a selection that matches no stored command. -/
def emptyShrinkwrap : Shrinkwrap :=
  { cc := [], ar := [], are := none }

/-- Whether a promise outcome is a rejection. -/
def exceptFailed {ε α : Type} : Except ε α → Bool
  | .error _ => true
  | .ok _ => false

/-! ## Helper lemmas -/

theorem jfind_optJField_self (k : String) (v : Option JValue)
    (rest : List (String × JValue)) (h : jfind rest k = none) :
    jfind (optJField k v ++ rest) k = v := by
  cases v <;> simp [optJField, jfind, h]

theorem jfind_optJField_ne (k : String) (v : Option JValue)
    (rest : List (String × JValue)) (key : String) (h : (k == key) = false) :
    jfind (optJField k v ++ rest) key = jfind rest key := by
  cases v <;> simp [optJField, jfind, h]

theorem jfind_optJField_last (k : String) (v : Option JValue) :
    jfind (optJField k v) k = v := by
  cases v <;> simp [optJField, jfind]

theorem jfind_optJField_last_ne (k : String) (v : Option JValue) (key : String)
    (h : (k == key) = false) : jfind (optJField k v) key = none := by
  cases v <;> simp [optJField, jfind, h]

theorem optJField_any_ne (k : String) (v : Option JValue) (key : String)
    (h : (k == key) = false) :
    (optJField k v).any (fun p => p.1 == key) = false := by
  cases v <;> simp [optJField, h]

theorem mapList_flagToJ (fs : List FlagDefinition) :
    mapList mapFlagDef (fs.map flagToJ) = some fs := by
  induction fs with
  | nil => rfl
  | cons f fs ih => simp [mapList, ih]; rfl

theorem mapList_jstr (rs : List String) :
    mapList mapString (rs.map JValue.jstr) = some rs := by
  induction rs with
  | nil => rfl
  | cons r rs ih => simp [mapList, ih]; rfl

theorem optionalNumber_map (v : Option Int) :
    optionalNumber (v.map .jnum) = some v := by cases v <;> rfl

theorem optionalString_map (v : Option String) :
    optionalString (v.map .jstr) = some v := by cases v <;> rfl

theorem optionalBoolean_map (v : Option Bool) :
    optionalBoolean (v.map .jbool) = some v := by cases v <;> rfl

theorem mapArrayOptional_flags (v : Option (List FlagDefinition)) :
    mapArrayOptional mapFlagDef (v.map fun fs => .jarr (fs.map flagToJ))
      = some v := by
  cases v <;> simp [mapArrayOptional, mapList_flagToJ]

theorem mapArrayOptional_roles (v : Option (List String)) :
    mapArrayOptional mapString (v.map fun rs => .jarr (rs.map .jstr))
      = some v := by
  cases v <;> simp [mapArrayOptional, mapList_jstr]

/-- Parsing a shrunk command's JSON image recovers it exactly. -/
theorem shrunk_roundtrip (c : ShrunkCommand) :
    mapShrunkCommand (shrunkToJ c) = some c := by
  simp [mapShrunkCommand, shrunkToJ, shrunkFields, jfind,
        jfind_optJField_self, jfind_optJField_ne,
        jfind_optJField_last, jfind_optJField_last_ne,
        optionalNumber_map, optionalString_map, optionalBoolean_map,
        mapArrayOptional_flags, mapArrayOptional_roles, mapString]

theorem filtered_roundtrip (a : ShrunkFilteredAutoresponse) :
    mapFiltered (filteredToJ a) = some a := by
  simp [mapFiltered, filteredToJ, jfind, shrunk_roundtrip, mapBoolean,
        mapString]

theorem are_roundtrip (o : Option ShrunkAutoresponse) :
    mapAre (areToJ o) = some o := by
  cases o <;> simp [mapAre, areToJ, jfind, shrunk_roundtrip]

theorem mapList_filteredToJ (ars : List ShrunkFilteredAutoresponse) :
    mapList mapFiltered (ars.map filteredToJ) = some ars := by
  induction ars with
  | nil => rfl
  | cons a ars ih => simp [mapList, filtered_roundtrip, ih]

theorem mapRecordFields_shrunk (cc : List (String × ShrunkCommand)) :
    mapRecordFields mapShrunkCommand (cc.map fun p => (p.1, shrunkToJ p.2))
      = some cc := by
  induction cc with
  | nil => rfl
  | cons p cc ih => simp [mapRecordFields, shrunk_roundtrip, ih]

/-- Re-parsing an exported payload document recovers the payload value. -/
theorem shrinkwrap_roundtrip (sw : Shrinkwrap) :
    mapShrinkwrap (swToJExport sw) = some sw := by
  simp [mapShrinkwrap, swToJExport, jfind, are_roundtrip,
        mapList_filteredToJ, mapRecordFields_shrunk]

/-- The serialization the install side signs differs from the exported one
on every bundle: the rebuilt top-level object starts with the `are` key, the
exported one with `cc`. -/
theorem sign_strings_ne (sw : Shrinkwrap) :
    signMappedString sw ≠ signExportString sw := by
  intro h
  have h4 := congrArg (fun s => s.data.take 4) h
  have e1 : ((signMappedString sw).data.take 4) = "\x7b\"ar".data := rfl
  have e2 : ((signExportString sw).data.take 4) = "\x7b\"cc".data := rfl
  simp only [e1, e2] at h4
  exact absurd h4 (by decide)

/-- The `deleteMessage` prop has exactly four result shapes: an error with
no side effects, success after marking with no message to delete, or
success after marking with one platform delete call. -/
theorem deleteMessage_shape (env : DeleteEnv) (channelId messageId : String) :
    (deleteMessage env channelId messageId).2 = []
    ∨ deleteMessage env channelId messageId
        = (.done, [.setNotCommandMarker env.guildId env.ctxMsg.id])
    ∨ ∃ m : Message, deleteMessage env channelId messageId
        = (.done, [.setNotCommandMarker env.guildId env.ctxMsg.id,
            .deleteMessageCall m.channelId m.id
              (env.deleteSucceeds m.channelId m.id)]) := by
  unfold deleteMessage
  cases hb : !(env.isStaff || env.ownsMessage messageId)
  · cases hc : env.parseChannel channelId with
    | none => simp
    | some chan =>
      by_cases he : env.ctxMsg.id = messageId
      · simp only [he, if_pos rfl]
        exact Or.inr (Or.inr ⟨env.ctxMsg, rfl⟩)
      · cases hg : env.getMessage chan messageId with
        | error e => simp [he, hg]
        | ok mo =>
          cases mo with
          | none => simp [he, hg]
          | some m => exact Or.inr (Or.inr ⟨m, by simp [he, hg]⟩)
  · simp

theorem retryConnectGo_spec (res : Nat → Except String Unit) (intervalMs : Nat) :
    ∀ fuel attempt,
      (retryConnectGo res intervalMs attempt fuel).2 = .ok ()
      ∧ (retryConnectGo res intervalMs attempt fuel).1.length ≤ fuel
      ∧ (∀ a ms, RetryEvent.failed a ms
            ∈ (retryConnectGo res intervalMs attempt fuel).1 → ms = intervalMs)
  | 0, attempt => by simp [retryConnectGo]
  | fuel + 1, attempt => by
    have ih := retryConnectGo_spec res intervalMs fuel (attempt + 1)
    cases hr : res (attempt + 1) with
    | ok u => simp [retryConnectGo, hr]
    | error e =>
      refine ⟨?_, ?_, ?_⟩
      · simpa [retryConnectGo, hr] using ih.1
      · simpa [retryConnectGo, hr, Nat.succ_le_succ_iff] using ih.2.1
      · intro a ms hm
        simp only [retryConnectGo, hr, List.mem_cons] at hm
        rcases hm with hm | hm
        · cases hm; rfl
        · exact ih.2.2 a ms hm

theorem retryConnectGo_allFail (res : Nat → Except String Unit)
    (intervalMs : Nat) (h : ∀ a, exceptFailed (res a) = true) :
    ∀ fuel attempt,
      (retryConnectGo res intervalMs attempt fuel).1
        = (List.range' (attempt + 1) fuel).map
            (fun a => RetryEvent.failed a intervalMs)
  | 0, attempt => by simp [retryConnectGo]
  | fuel + 1, attempt => by
    have ih := retryConnectGo_allFail res intervalMs h fuel (attempt + 1)
    cases hr : res (attempt + 1) with
    | ok u => have := h (attempt + 1); rw [hr] at this; simp [exceptFailed] at this
    | error e => simp [retryConnectGo, hr, List.range', ih]

/-! ## Claim theorems -/

/-- C1: arity dispatch selects a subtag's handler by exact argument count
(shown for the delete subtag's 0-, 1- and 2-argument handlers), and when no
exact-count handler exists the designated default handler runs: every call
to `delete` with three or more arguments invokes its `whenDefault` handler,
which reports the too-many-arguments arity error and performs no side
effect. -/
theorem delete_dispatch_tooManyArguments (env : DeleteEnv)
    (args : List String) (h : 3 ≤ args.length) :
    selectHandler (deleteSubtag env) args.length args
      = (.tooManyArguments, [])
    ∧ selectHandler (deleteSubtag env) 0 []
        = deleteMessage env env.ctxChannel env.ctxMsg.id
    ∧ (∀ a : String, selectHandler (deleteSubtag env) 1 [a]
        = deleteMessage env env.ctxChannel a)
    ∧ (∀ a b : String, selectHandler (deleteSubtag env) 2 [a, b]
        = deleteMessage env a b) := by
  refine ⟨?_, rfl, fun a => rfl, fun a b => rfl⟩
  obtain ⟨m, hm⟩ : ∃ m, args.length = m + 3 := ⟨args.length - 3, by omega⟩
  rw [hm]
  rfl

theorem delete_dispatch_tooManyArguments_witness :
    selectHandler (deleteSubtag sampleEnv) 3 ["a", "b", "c"]
      = (.tooManyArguments, []) :=
  (delete_dispatch_tooManyArguments sampleEnv ["a", "b", "c"] (by decide)).1

/-- C2: when the invoking author is neither staff nor the owner of the
target message, the delete subtag returns the in-band runtime error
'Author must be staff to delete unrelated messages', performs no side
effect at all (no marker write, no platform delete call), and the error is
non-fatal. -/
theorem delete_unauthorized (env : DeleteEnv) (channelId messageId : String)
    (h1 : env.isStaff = false) (h2 : env.ownsMessage messageId = false) :
    deleteMessage env channelId messageId
      = (.runtimeError "Author must be staff to delete unrelated messages", [])
    ∧ nonFatal
        (.runtimeError "Author must be staff to delete unrelated messages")
      = true := by
  exact ⟨by simp [deleteMessage, h1, h2], rfl⟩

theorem delete_unauthorized_witness :
    deleteMessage unauthorizedEnv "c1" "m1"
      = (.runtimeError "Author must be staff to delete unrelated messages", [])
    ∧ nonFatal
        (.runtimeError "Author must be staff to delete unrelated messages")
      = true :=
  delete_unauthorized unauthorizedEnv "c1" "m1" rfl rfl

/-- C3 counterexample: with every precondition satisfied and the platform
`deleteMessage` call failing, the handler still completes with `done` and
reports no diagnostic whatsoever: the host-capability failure of the delete
call is silently swallowed by the no-op catch block. -/
theorem delete_swallow_counterexample :
    deleteMessage deleteFailsEnv "c1" "m1"
      = (.done, [.setNotCommandMarker "g" "m0",
                 .deleteMessageCall "c1" "m1" false])
    ∧ reportsDiagnostic (deleteMessage deleteFailsEnv "c1" "m1") = false := by
  decide

/-- C3 amended: a failing `getMessage` lookup of a non-invoking message is
recovered into the in-band no-message-found diagnostic, but a failing
platform `deleteMessage` call is silently swallowed: whenever the trace
records a failed delete call the handler's outcome is still `done`, with no
diagnostic. -/
theorem delete_capability_failures (env : DeleteEnv)
    (channelId messageId : String) :
    (∀ chanId, env.isStaff = true → env.parseChannel channelId = some chanId →
      env.ctxMsg.id ≠ messageId →
      env.getMessage chanId messageId = .error () →
      deleteMessage env channelId messageId = (.noMessageFound, []))
    ∧ (∀ c m, SideEffect.deleteMessageCall c m false
          ∈ (deleteMessage env channelId messageId).2 →
        (deleteMessage env channelId messageId).1 = .done
        ∧ reportsDiagnostic (deleteMessage env channelId messageId) = false) := by
  constructor
  · intro chanId hs hp hne hg
    simp [deleteMessage, hs, hp, hne, hg]
  · intro c m hm
    rcases deleteMessage_shape env channelId messageId with h0 | h1 | ⟨m1, h2⟩
    · rw [h0] at hm; cases hm
    · rw [h1] at hm
      simp at hm
    · rw [h2] at hm
      rw [h2]
      exact ⟨rfl, rfl⟩

theorem delete_capability_failures_witness :
    deleteMessage getMessageThrowsEnv "c1" "m1" = (.noMessageFound, [])
    ∧ ((deleteMessage deleteFailsEnv "c1" "m1").1 = .done
        ∧ reportsDiagnostic (deleteMessage deleteFailsEnv "c1" "m1") = false) :=
  ⟨(delete_capability_failures getMessageThrowsEnv "c1" "m1").1 "c1" rfl rfl
      (by decide) rfl,
   (delete_capability_failures deleteFailsEnv "c1" "m1").2 "c1" "m1" (by decide)⟩

/-- C7 counterexample: deleting a message other than the invoking one sets
the not-command marker under the invoking message's id (`m0`), not under
the id of the message the script deleted (`m1`). -/
theorem delete_marker_counterexample :
    deleteMessage sampleEnv "c1" "m1"
      = (.done, [.setNotCommandMarker "g" "m0",
                 .deleteMessageCall "c1" "m1" true])
    ∧ "m0" ≠ "m1" := by
  decide

/-- C7 amended: whenever the delete subtag performs any side effect at all
(permission check passed, channel resolved, target resolved), the first
effect is setting the do-not-treat-as-command marker keyed by the guild id
and the id of the invoking message `context.msg.id` — not the target
message — so it precedes the platform delete call. -/
theorem delete_marker_first (env : DeleteEnv) (channelId messageId : String)
    (h : (deleteMessage env channelId messageId).2 ≠ []) :
    (deleteMessage env channelId messageId).2.head?
      = some (.setNotCommandMarker env.guildId env.ctxMsg.id) := by
  rcases deleteMessage_shape env channelId messageId with h0 | h1 | ⟨m, h2⟩
  · exact absurd h0 h
  · rw [h1]; rfl
  · rw [h2]; rfl

theorem delete_marker_first_witness :
    (deleteMessage sampleEnv "c1" "m1").2.head?
      = some (.setNotCommandMarker "g" "m0") :=
  delete_marker_first sampleEnv "c1" "m1" (by decide)

/-- C4: if the pre-execution static analysis of a submitted script reports
at least one error, `saveCommand` returns the error message listing the
analysis results and performs no `setCommand` store call, leaving the
stored command unchanged. -/
theorem saveCommand_rejects_on_errors (env : SaveEnv)
    (operation commandName : String) (content : Option String)
    (currentCommand : Option NamedStoredRawGuildCommand) (c : String)
    (hc : requestCommandContent env content = some c)
    (he : 0 < (env.check c).errors.length) :
    saveCommand env operation commandName content currentCommand
      = (some ("❌ There were errors with the bbtag you provided!\n"
                 ++ env.stringifyAnalysis (env.check c)), []) := by
  simp [saveCommand, hc, he]

theorem saveCommand_rejects_on_errors_witness :
    saveCommand failingSaveEnv "created" "mycmd" (some "hello") none
      = (some ("❌ There were errors with the bbtag you provided!\n"
                 ++ "`x` is not a valid subtag"), []) :=
  saveCommand_rejects_on_errors failingSaveEnv "created" "mycmd"
    (some "hello") none "hello" rfl (by decide)

/-- C5 counterexample: an untampered bundle does trigger the
incorrect-signature warning. Exporting the empty bundle and re-installing
the unmodified document recomputes the keyed hash over a differently
serialized payload, so the comparison yields `false` (shown with a concrete
keyed hash, the identity). -/
theorem shrinkwrap_signature_counterexample :
    installSignatureCheck (fun s => s)
        (exportSignedBundle (fun s => s) emptyShrinkwrap).1
        (exportSignedBundle (fun s => s) emptyShrinkwrap).2
      = some false := by
  decide

/-- C5 amended: re-installing an unmodified exported bundle recovers an
equal payload value, but `installCommands` recomputes the HMAC over the
serialization of the payload object the mapping combinators rebuild, whose
key order (`are`, `ar`, `cc`) differs from the exported serialization's
(`cc`, `ar`, `are`); the two serialized strings are never equal, so the
stored signature matches the recomputed one exactly when the keyed hash
collides on them — an untampered bundle is not guaranteed to avoid the
incorrect-signature warning. -/
theorem shrinkwrap_signature_recomputed (hmac : String → String)
    (sw : Shrinkwrap) :
    mapShrinkwrap (swToJExport sw) = some sw
    ∧ signMappedString sw ≠ signExportString sw
    ∧ installSignatureCheck hmac (exportSignedBundle hmac sw).1
        (exportSignedBundle hmac sw).2
      = some (hmac (signExportString sw) == hmac (signMappedString sw)) := by
  refine ⟨shrinkwrap_roundtrip sw, sign_strings_ne sw, ?_⟩
  simp [installSignatureCheck, exportSignedBundle, shrinkwrap_roundtrip]

/-- C6: the shrunk command placed in the bundle round-trips exactly the
`ShrunkCommand` shape — script text, cooldown, flags, help text, hidden,
language, managed, role restrictions and use count are preserved by
shrinking, its JSON image parses back to the very same value, and the image
never contains an `author`, `authorizer` or `name` field. -/
theorem shrinkCommand_roundtrip (command : NamedStoredRawGuildCommand) :
    shrinkCommand command
      = { content := command.content, cooldown := command.cooldown,
          flags := command.flags, help := command.help,
          hidden := command.hidden, lang := command.lang,
          managed := command.managed, roles := command.roles,
          uses := command.uses }
    ∧ mapShrunkCommand (shrunkToJ (shrinkCommand command))
        = some (shrinkCommand command)
    ∧ jhasKey (shrunkToJ (shrinkCommand command)) "author" = false
    ∧ jhasKey (shrunkToJ (shrinkCommand command)) "authorizer" = false
    ∧ jhasKey (shrunkToJ (shrinkCommand command)) "name" = false := by
  refine ⟨rfl, shrunk_roundtrip (shrinkCommand command), ?_, ?_, ?_⟩ <;>
    simp [jhasKey, shrunkToJ, shrunkFields, optJField_any_ne]

/-- C8: `Database.connect` is idempotent — the first call performs the four
retried connections, the seven migrations and the two change watches, and
any call on an instance whose `connect` has already run performs no work at
all. -/
theorem databaseConnect_idempotent (s : DbConnectState) :
    Database.connect { connectReplaced := false }
      = ({ connectReplaced := true }, connectWork)
    ∧ Database.connect (Database.connect s).1 = ((Database.connect s).1, []) := by
  refine ⟨rfl, ?_⟩
  obtain ⟨r⟩ := s
  cases r <;> rfl

/-- C9: `retryConnect` (as `connect` invokes it, with a 5000ms interval and
10 maximum attempts) never rejects: it always resolves, makes at most 10
attempts, sleeps 5000ms after each failed attempt, and when every attempt
fails it performs exactly attempts 1 through 10 and still resolves
normally. -/
theorem retryConnect_resolves (res : Nat → Except String Unit) :
    (retryConnect res 5000 10).2 = .ok ()
    ∧ (retryConnect res 5000 10).1.length ≤ 10
    ∧ (∀ a ms, RetryEvent.failed a ms ∈ (retryConnect res 5000 10).1
        → ms = 5000)
    ∧ ((∀ a, exceptFailed (res a) = true) →
        (retryConnect res 5000 10).1
          = (List.range' 1 10).map (fun a => RetryEvent.failed a 5000)) := by
  have hs := retryConnectGo_spec res 5000 10 0
  exact ⟨hs.1, hs.2.1, hs.2.2,
    fun h => retryConnectGo_allFail res 5000 h 10 0⟩

theorem retryConnect_resolves_witness :
    (retryConnect (fun _ => Except.error "down") 5000 10).2 = .ok ()
    ∧ (retryConnect (fun _ => Except.error "down") 5000 10).1
        = (List.range' 1 10).map (fun a => RetryEvent.failed a 5000) :=
  ⟨(retryConnect_resolves (fun _ => Except.error "down")).1,
   (retryConnect_resolves (fun _ => Except.error "down")).2.2.2 (fun _ => rfl)⟩

/-- C10 counterexample: with exactly one positional argument remaining, the
binder yields two candidate bindings, not one: the inclusive loop bound
produces an extra final candidate whose merge range extends one past the
last argument. -/
theorem concatBinding_count_counterexample :
    concatBinding "x" none false (fun s => s) samplePositional 0
      = [.binding 0 "v01", .binding 1 "v02"]
    ∧ (concatBinding "x" none false (fun s => s) samplePositional 0).length
        ≠ 1 := by
  decide

/-- C10 amended: when no positional arguments remain the binder yields
exactly one result — the parsed fallback if one is defined, otherwise the
not-enough-arguments binding error; when N ≥ 1 arguments remain it yields
exactly N + 1 candidate bindings, the candidate at index i (i = 0..N)
parsing `merge(argIndex, argIndex + i + 1)` — so the final candidate's
range extends one position past the last argument. -/
theorem concatBinding_results {α : Type} (name : String)
    (fallback : Option String) (raw : Bool) (parse : String → α)
    (flagsPos : PositionalArgs) (argIndex : Nat) :
    (flagsPos.length = argIndex →
      concatBinding name fallback raw parse flagsPos argIndex
        = match fallback with
          | some fb => [.binding 0 (parse fb)]
          | none => [.bindingError
              ("❌ Not enough arguments! `" ++ name ++ "` is required")])
    ∧ (argIndex < flagsPos.length →
        (concatBinding name fallback raw parse flagsPos argIndex).length
          = flagsPos.length - argIndex + 1
        ∧ ∀ i, i ≤ flagsPos.length - argIndex →
            (concatBinding name fallback raw parse flagsPos argIndex).get? i
              = some (.binding i (parse
                  (if raw then (flagsPos.merge argIndex (argIndex + i + 1)).raw
                   else (flagsPos.merge argIndex (argIndex + i + 1)).value)))) := by
  constructor
  · intro h
    simp [concatBinding, h]
  · intro h
    have hne : ¬ flagsPos.length = argIndex := by omega
    have hnl : ¬ flagsPos.length < argIndex := by omega
    constructor
    · simp [concatBinding, hne, hnl]
    · intro i hi
      simp only [concatBinding, if_neg hne, if_neg hnl,
                 List.get?_eq_getElem?, List.getElem?_map]
      rw [List.getElem?_range (by omega : i < flagsPos.length - argIndex + 1)]
      rfl

theorem concatBinding_results_witness :
    concatBinding "x" (some "fb") false (fun s => s) samplePositional 1
      = [.binding 0 "fb"]
    ∧ (concatBinding "y" none true (fun s => s) samplePositional 0).length
        = 2 :=
  ⟨(concatBinding_results "x" (some "fb") false (fun s => s)
      samplePositional 1).1 rfl,
   ((concatBinding_results "y" none true (fun s => s)
      samplePositional 0).2 (by decide)).1⟩

end Blargbot
